import Mathlib

/-!
Shallow embedding of the `pause-framework` core module (`src/pause.js`,
class `Pause`) and proofs about its specified behaviour.

The embedding models:
* the JavaScript values and error objects the module manipulates
  (`JsVal`, `JsError`; a `JsError` keeps a `tag` modelling JS object
  identity, since the code mutates and rethrows the very same `Error`
  object);
* the textual-code helpers of `Pause._executeCodeStringViaEval`
  (parameter inference, body inference, scope injection);
* a small concrete model of the JavaScript engine for the code fragment
  the examples exercise (literals, identifiers, `+`, arrow-function
  literals) — the engine itself is not part of the repository, so its
  semantics are modelled from ECMAScript behaviour;
* the orchestration of `Pause.run` (resolver, executor dispatch, the AI
  correction retry loop of lines 89–117, `_attemptAICorrection`,
  persistence), instrumented with an event trace recording the calls
  made to the external collaborators (store fetch/save, oracle
  invocations, executions).
-/

/-- Modelled from the platform: the JavaScript values the examples and
claims manipulate.  `closure` is a function value, identified by its
source text (sufficient for this development, which never compares
function values beyond provenance). -/
inductive JsVal where
  | num (n : Int)
  | str (s : String)
  | bool (b : Bool)
  | undefined
  | closure (src : String)
deriving DecidableEq, Repr

/-- Modelled from the platform: a JavaScript `Error` object.  `tag`
models the object's identity (reference equality): the source mutates
`error.message` on an existing object and rethrows it, which preserves
identity, so the model updates `message` while keeping `tag`. -/
structure JsError where
  tag : Nat := 0
  name : String := "Error"
  message : String
  stack : String := ""
deriving DecidableEq, Repr

/-- Model of `new Error(msg)` as the module constructs it (identity tag 0: no
claim depends on the identity of errors the module itself allocates). -/
def mkError (msg : String) : JsError := { message := msg }

/-- Modelled from the platform: `error.toString()` for an `Error`. -/
def JsError.toStr (e : JsError) : String := e.name ++ ": " ++ e.message

/-- Result of a JavaScript computation: a value or a thrown error. -/
abbrev JsResult (α : Type) := Except JsError α

/-- Whether an `Except` is a success (local helper). -/
def exceptOk {ε α : Type} : Except ε α → Bool
  | .ok _ => true
  | .error _ => false

/- ## String helpers (modelling the JS string operations used) -/

/-- Modelled from the platform: JS `String.prototype.trim` (on char lists). -/
def jsTrimList (l : List Char) : List Char :=
  ((l.dropWhile Char.isWhitespace).reverse.dropWhile Char.isWhitespace).reverse

/-- Modelled from the platform: JS `String.prototype.trim`. -/
def jsTrim (s : String) : String := String.mk (jsTrimList s.toList)

/-- The characters strictly after the first occurrence of `c`, if any. -/
def afterFirst (c : Char) : List Char → Option (List Char)
  | [] => none
  | x :: xs => if x = c then some xs else afterFirst c xs

/-- The characters strictly before the first occurrence of `c`, if any. -/
def upTo (c : Char) : List Char → Option (List Char)
  | [] => none
  | x :: xs => if x = c then some [] else (upTo c xs).map (x :: ·)

/-- Split a character list on a separator character (JS `split(sep)`). -/
def splitOnChar (sep : Char) : List Char → List (List Char)
  | [] => [[]]
  | x :: xs =>
    match splitOnChar sep xs with
    | [] => [[]]
    | g :: gs => if x = sep then [] :: g :: gs else (x :: g) :: gs

/-- JS object property read over the insertion-ordered model of an
object (`none` models an absent property). -/
def objGet (o : List (String × JsVal)) (k : String) : Option JsVal :=
  match o with
  | [] => none
  | (k', v) :: rest => if k' = k then some v else objGet rest k

/-- JS object property assignment `o[k] = v`: updates the existing key
in place or appends, preserving JS insertion order of `Object.keys`. -/
def objSet (o : List (String × JsVal)) (k : String) (v : JsVal) : List (String × JsVal) :=
  match o with
  | [] => [(k, v)]
  | (k', v') :: rest => if k' = k then (k, v) :: rest else (k', v') :: objSet rest k v

/- ## Parameter inference (`pause.js` line 327–328)

`codeString.match(/\((.*?)\)/)` finds the first `(` and captures
(non-greedily) up to the next `)`.  The single-line-dot subtlety of the
missing `s` flag is immaterial for the single-line signatures treated
here.  Then `.split(',').map(p => p.trim()).filter(Boolean)`. -/

/-- The capture of `/\((.*?)\)/`: between the first `(` and the next `)`. -/
def firstParenGroup (s : String) : Option (List Char) :=
  (afterFirst '(' s.toList).bind (upTo ')')

/-- Inferred parameter names of a code string (`pause.js` 327–328). -/
def inferParams (codeString : String) : List String :=
  match firstParenGroup codeString with
  | none => []
  | some inner =>
    (((splitOnChar ',' inner).map jsTrimList).filter (· ≠ [])).map String.mk

/- ## Body inference (`pause.js` lines 335–345)

`/=>\s*{(.*)}\s*$|function.*?{(.*)}\s*$/s` followed by the fallback
`/=>\s*(.*)/s`.  With the greedy dot-all capture and the `$` anchor, a
successful block match captures everything between the opening brace
(after `=>` plus whitespace, or the first brace after `function`) and
the last brace that is followed only by whitespace. -/

/-- Strip trailing whitespace and then one final `}` (the `}\s*$` tail
of the regex); returns the capture of the greedy `(.*)`. -/
def stripTrailingBrace (t : List Char) : Option (List Char) :=
  match (t.reverse.dropWhile Char.isWhitespace) with
  | '}' :: rev => some rev.reverse
  | _ => none

/-- At a position right after `=>`: `\s*{` then the greedy capture. -/
def blockAfterArrow (rest : List Char) : Option (List Char) :=
  match rest.dropWhile Char.isWhitespace with
  | '{' :: t => stripTrailingBrace t
  | _ => none

/-- At a position right after `function`: lazy `.*?{` (nearest brace),
then the greedy capture. -/
def blockAfterFunction (rest : List Char) : Option (List Char) :=
  (afterFirst '{' rest).bind stripTrailingBrace

/-- Left-to-right scan for the alternation
`=>\s*{(.*)}\s*$|function.*?{(.*)}\s*$` (leftmost match wins). -/
def scanBodyMatch : List Char → Option (List Char)
  | [] => none
  | c :: rest =>
    if c = '=' then
      match rest with
      | '>' :: r2 =>
        match blockAfterArrow r2 with
        | some cap => some cap
        | none => scanBodyMatch rest
      | _ => scanBodyMatch rest
    else if List.isPrefixOf "function".toList (c :: rest) then
      match blockAfterFunction rest with
      | some cap => some cap
      | none => scanBodyMatch rest
    else scanBodyMatch rest

/-- The block-body capture of the regex on line 337, as a string. -/
def blockBodyMatch (s : String) : Option String :=
  (scanBodyMatch s.toList).map String.mk

/-- The fallback `/=>\s*(.*)/s` of line 342: everything after the first
`=>` and subsequent whitespace. -/
def scanArrowExpr : List Char → Option (List Char)
  | [] => none
  | '=' :: '>' :: r => some (r.dropWhile Char.isWhitespace)
  | _ :: r => scanArrowExpr r

/-- The inferred body (`pause.js` 335–345).  Note the JS falsy check
`bodyMatch[1] || bodyMatch[2] || body`: an *empty* block capture falls
back to the whole code string, and the arrow-expression fallback only
applies when the block regex did not match at all. -/
def computeBody (codeString : String) : String :=
  match blockBodyMatch codeString with
  | some cap => if cap = "" then codeString else cap
  | none =>
    match scanArrowExpr codeString.toList with
    | some r => "return " ++ String.mk r
    | none => codeString

/- ## Mini JS engine (modelled from the platform)

The repository executes synthesized code through `new Function` /
`AsyncFunction`; the engine is external to the repository, so its
semantics are modelled here for the fragment the claims exercise:
integer literals, identifiers (an identifier unresolved in the
execution environment throws a `ReferenceError`, per ECMAScript),
`+` on numbers, `return` statements, and arrow-function literals
(whose evaluation as an expression only creates a closure). -/

/-- Addition as the fragment uses it (number + number; other pairings
are outside the modelled fragment and yield `undefined`). -/
def jsAdd : JsVal → JsVal → JsVal
  | .num a, .num b => .num (a + b)
  | _, _ => .undefined

/-- Decimal digit run to a natural number (JS numeric literal). -/
def digitsToNat (l : List Char) : Nat :=
  l.foldl (fun acc c => acc * 10 + (c.toNat - '0'.toNat)) 0

/-- Evaluate an atomic term: an integer literal or an identifier looked
up in the environment; an unresolved identifier throws `ReferenceError`. -/
def evalAtomMini (t : String) (env : List (String × JsVal)) : JsResult JsVal :=
  if t ≠ "" ∧ t.toList.all Char.isDigit then
    .ok (.num (digitsToNat t.toList))
  else
    match objGet env t with
    | some v => .ok v
    | none => .error { name := "ReferenceError", message := t ++ " is not defined" }

/-- Evaluate a `+`-chain of atomic terms left to right. -/
def evalExprMini (e : String) (env : List (String × JsVal)) : JsResult JsVal :=
  match (splitOnChar '+' e.toList).map (fun l => String.mk (jsTrimList l)) with
  | [] => .ok .undefined
  | t :: ts =>
    ts.foldl
      (fun acc t' =>
        match acc with
        | .error err => .error err
        | .ok v =>
          match evalAtomMini t' env with
          | .error err => .error err
          | .ok w => .ok (jsAdd v w))
      (evalAtomMini t env)

/-- Evaluate a synthesized function body in an environment: an empty
body returns `undefined`; `return e` returns the value of `e`; a bare
expression statement is evaluated (it may throw) and the function
returns `undefined`. -/
def evalBodyMini (body : String) (env : List (String × JsVal)) : JsResult JsVal :=
  let b := jsTrimList body.toList
  if b = [] then .ok .undefined
  else if List.isPrefixOf "return ".toList b then evalExprMini (String.mk (b.drop 7)) env
  else
    match evalExprMini (String.mk b) env with
    | .error err => .error err
    | .ok _ => .ok .undefined

/- ## `Pause._executeCodeStringViaEval` (`pause.js` lines 324–363) -/

/-- The execution scope of lines 330–333: `{...scope}` then
`params.forEach((p, i) => executionScope[p] = args[i])` (an index past
the end of `args` reads as `undefined`). -/
def bindParams (scope : List (String × JsVal)) (params : List String) (args : List JsVal) : List (String × JsVal) :=
  (params.enum).foldl (fun sc pi => objSet sc pi.2 (args.getD pi.1 .undefined)) scope

/-- Message wrapping of line 360 (mutates the same error object). -/
def wrapEvalErr (id : String) (e : JsError) : JsError :=
  { e with message := "Error executing code string via eval for ID " ++ id ++ ": " ++ e.message }

namespace Pause

/-- Model of `Pause._executeCodeStringViaEval` (lines 324–363): infer
parameters, build the execution scope, infer the body, synthesize an
(async) function over the scope's keys and call it with the scope's
values; on a throw, wrap the error's message (same error object). -/
def executeCodeStringViaEval (codeString id : String) (scope : List (String × JsVal)) (args : List JsVal) : JsResult JsVal :=
  let params := inferParams codeString
  let executionScope := bindParams scope params args
  let body := computeBody codeString
  match evalBodyMini body executionScope with
  | .ok v => .ok v
  | .error e => .error (wrapEvalErr id e)

/-- Model of `Pause._executeFunctionString` (lines 290–311): synthesize
a function from a complete function-literal string and call it with the
original arguments.  The synthesis itself (`new Function` /
`AsyncFunction` choice via the leading-token heuristic, argument
plumbing) is the platform's job, abstracted as the `exec` parameter;
the repository-level part modelled here is the catch of line 305–310,
which prepends context to the *same* error object's message and
rethrows it. -/
def executeFunctionString (exec : String → List JsVal → JsResult JsVal) (codeString id : String) (args : List JsVal) : JsResult JsVal :=
  match exec codeString args with
  | .ok v => .ok v
  | .error e =>
    .error { e with message := "Error executing function string for ID " ++ id ++ ": " ++ e.message }

end Pause

/- ## Mini JS engine for `new Function('return ' + code)()` (modelled
from the platform)

Lines 176 and 272 validate a candidate correction by building a
function whose body is `return <code>` and *invoking* it.  The engine
is external to the repository; this is a concrete model of it for the
expression fragment used here: integer literals, identifiers, and
arrow-function literals.  Per ECMAScript, the `Function` constructor
parses the body before any call (a parse failure throws
`SyntaxError`), and invoking the synthesized function evaluates the
candidate as an expression in global scope — so an identifier bound
nowhere throws `ReferenceError`, while an arrow-function literal
merely evaluates to a closure without running its body.  Strings
outside the fragment are treated as unparseable. -/

/-- The modelled fragment of JS expressions. -/
inductive MiniExpr where
  | lit (n : Nat)
  | ident (x : String)
  | arrow (src : String)
deriving DecidableEq, Repr

/-- First character of a JS identifier. -/
def isIdentStart (c : Char) : Bool := c.isAlpha || c = '_' || c = '$'

/-- Later character of a JS identifier. -/
def isIdentChar (c : Char) : Bool := isIdentStart c || c.isDigit

/-- Whether a character list is a JS identifier. -/
def isIdentList : List Char → Bool
  | [] => false
  | c :: cs => isIdentStart c && cs.all isIdentChar

/-- Parenthesis balance check (for arrow-literal recognition). -/
def balancedAux : List Char → Nat → Bool
  | [], n => n = 0
  | c :: cs, n =>
    if c = '(' then balancedAux cs (n + 1)
    else if c = ')' then
      match n with
      | 0 => false
      | m + 1 => balancedAux cs m
    else balancedAux cs n

/-- Whether `=>` occurs in the character list. -/
def containsArrow : List Char → Bool
  | [] => false
  | '=' :: '>' :: _ => true
  | _ :: r => containsArrow r

/-- Recognizer of the modelled expression fragment: a digit run, an
identifier, or a parenthesis-led arrow-function literal with balanced
parentheses.  `none` models a `SyntaxError` from the `Function`
constructor. -/
def miniParse (s : String) : Option MiniExpr :=
  let t := jsTrimList s.toList
  if t ≠ [] ∧ t.all Char.isDigit then some (.lit (digitsToNat t))
  else if isIdentList t then some (.ident (String.mk t))
  else if (match t with | '(' :: _ => true | _ => false) && containsArrow t && balancedAux t 0 then
    some (.arrow (String.mk t))
  else none

/-- Evaluation of a parsed expression at global scope (no global
bindings are modelled: an identifier throws `ReferenceError`, exactly
what `new Function('return x')()` does for an unbound `x`). -/
def miniEvalExpr : MiniExpr → JsResult JsVal
  | .lit n => .ok (.num n)
  | .ident x => .error { name := "ReferenceError", message := x ++ " is not defined" }
  | .arrow src => .ok (.closure src)

/-- The full platform behaviour of `new Function('return ' + c)()`:
parse (throwing `SyntaxError` on failure), then invoke, which
evaluates `c` as an expression. -/
def miniEvalReturnOf (c : String) : JsResult JsVal :=
  match miniParse c with
  | none => .error { name := "SyntaxError", message := "Unexpected token" }
  | some e => miniEvalExpr e

/-- Syntactic validity of a candidate in the modelled fragment. -/
def miniSyntaxOk (c : String) : Bool := (miniParse c).isSome

/- ## Correction oracle client (`pause.js` lines 134–181, 193–243) -/

/-- The `contextInfo` object of `_buildCorrectionPrompt` (lines
194–201), whose fields the prompt string interpolates verbatim: the
identifier, the description, `error.toString()`, `error.stack`, the
original code text, and `JSON.stringify(args)`. -/
structure CorrectionRequest where
  id : String
  description : String
  error : String
  stack : String
  originalCode : String
  args : String
deriving DecidableEq, Repr

/-- Modelled from the platform: `JSON.stringify` on an argument value
(`undefined` and functions inside an array serialize as `null`). -/
def jsonOfVal : JsVal → String
  | .num n => toString n
  | .str s => "\x22" ++ s ++ "\x22"
  | .bool b => cond b "true" "false"
  | .undefined => "null"
  | .closure _ => "null"

/-- Comma-join (kernel-reducible replacement for library joins). -/
def joinComma : List String → String
  | [] => ""
  | [s] => s
  | s :: rest => s ++ "," ++ joinComma rest

/-- Modelled from the platform: `JSON.stringify` on the argument list. -/
def jsonStringifyArgs (args : List JsVal) : String :=
  "[" ++ joinComma (args.map jsonOfVal) ++ "]"

namespace Pause

/-- Model of `Pause._buildCorrectionPrompt` (lines 193–243), reduced to
the `contextInfo` data the prompt interpolates. -/
def buildCorrectionPrompt (id description originalCode : String) (e : JsError) (args : List JsVal) : CorrectionRequest :=
  { id := id
    description := description
    error := e.toStr
    stack := e.stack
    originalCode := originalCode
    args := jsonStringifyArgs args }

end Pause

/-- A structured tool call in the oracle's response (`tool_calls[i]`).
`block_id`/`corrected_code` are the parsed argument fields; `none`
models a field that is absent or not a string (both fail the string
comparisons of lines 168–173 the same way a missing field does). -/
structure ToolCall where
  name : String
  block_id : Option String
  corrected_code : Option String
deriving DecidableEq, Repr

/-- The oracle's raw response (`aiResponse`): its structured tool calls
and its plain content.  Tool-call arguments are modelled post-JSON
parse (the string re-parse branch of lines 153–159 is upstream of
every claim). -/
structure AiResponse where
  tool_calls : List ToolCall
  content : String
deriving DecidableEq, Repr

namespace Pause

/-- The syntax-validation step of lines 175–179: run
`new Function('return ' + code)()` (the `evalReturnOf` parameter is
the platform model of that construct+call) and, on a throw, raise a
fresh error wrapping the platform error's message. -/
def validateCandidate (evalReturnOf : String → JsResult JsVal) (correctedCode : String) : JsResult Unit :=
  match evalReturnOf correctedCode with
  | .ok _ => .ok ()
  | .error e =>
    .error (mkError ("AI proposed invalid JavaScript syntax: " ++ e.message ++ "\nCode: " ++ correctedCode))

/-- The response-processing tail of `_attemptAICorrection` (lines
145–180): require at least one tool call, the recognized tool name, an
echoed `block_id` equal to the request id, a non-empty string
`corrected_code`, and syntax validation of the candidate; on success
return the candidate unchanged.  (The "unexpected tool call" message
stringifies the whole call in source; the model keeps its name.) -/
def processAiResponse (evalReturnOf : String → JsResult JsVal) (id : String) (resp : AiResponse) : JsResult String :=
  match resp.tool_calls with
  | [] =>
    .error (mkError ("AI failed to propose a correction using the tool. Response content: " ++ resp.content))
  | toolCall :: _ =>
    if toolCall.name ≠ "propose_corrected_block" then
      .error (mkError ("AI responded with unexpected tool call structure or args: " ++ toolCall.name))
    else if toolCall.block_id ≠ some id then
      .error (mkError ("AI tool call had mismatched block_id. Expected " ++ id ++ ", got " ++ toolCall.block_id.getD "undefined"))
    else
      match toolCall.corrected_code with
      | some correctedCode =>
        if correctedCode = "" then
          .error (mkError "AI tool call did not return a valid corrected_code string.")
        else
          match validateCandidate evalReturnOf correctedCode with
          | .error e => .error e
          | .ok _ => .ok correctedCode
      | none => .error (mkError "AI tool call did not return a valid corrected_code string.")

end Pause

/- ## `Pause.run` orchestration (`pause.js` lines 29–32, 66–117) -/

/-- Trace of calls made to the external collaborators during one `run`
invocation (store fetch/save, executions, oracle invocations). -/
inductive Event where
  | fetchCall (id : String)
  | execDb (code : String)
  | execDefaultFn
  | execDefaultEval (code : String)
  | oracleInvoke (req : CorrectionRequest) (attempt : Nat)
  | saveCall (id : String) (code : String)
  | execCorrected (code : String)
deriving DecidableEq, Repr

/-- The per-instance configuration and external collaborators of a
`Pause` instance, plus the platform execution model:
`fetch`/`save` are `getFunctionFromDb`/`saveFunctionToDb`; `llm`
whether an oracle is configured (`this.llm`); `maxAiRetries` the retry
bound; `llmInvoke` the oracle call of line 142 (per prompt and
attempt); `exec` the platform synthesis+call behind
`_executeFunctionString`; `evalReturnOf` the platform behaviour of
`new Function('return ' + c)()` used by validation. -/
structure RunEnv where
  fetch : String → JsResult (Option String)
  save : String → String → JsResult Unit
  llm : Bool
  maxAiRetries : Nat
  llmInvoke : CorrectionRequest → Nat → JsResult AiResponse
  exec : String → List JsVal → JsResult JsVal
  evalReturnOf : String → JsResult JsVal

/-- The caller-supplied default implementation (`fnOrCode`): a callable
(with its `toString()` text and its result on this call's arguments),
a code string, or an invalid value of another type. -/
inductive FnOrCode where
  | fn (text : String) (behavior : JsResult JsVal)
  | codeStr (text : String)
  | invalid
deriving Repr

/-- The `originalCodeString` of line 68 (`fnOrCode.toString()` for a
callable, the string itself otherwise). -/
def FnOrCode.text : FnOrCode → String
  | .fn t _ => t
  | .codeStr t => t
  | .invalid => ""

/-- The error of lines 70–72. -/
def invalidInputError : JsError :=
  mkError "[Pause] Invalid type for fnOrCode: must be a function or string."

/-- The RetryExhausted message of line 109. -/
def retryExhaustedMessage (id lastMsg origMsg : String) : String :=
  "Max AI retries reached for block ID: " ++ id ++ ". Last AI error: " ++ lastMsg ++ ". Original error: " ++ origMsg

namespace Pause

/-- Model of `_attemptAICorrection` (lines 134–181): invoke the bound oracle
with the correction prompt, then parse/validate the response. -/
def attemptAICorrection (env : RunEnv) (req : CorrectionRequest) (attempt : Nat) : JsResult String :=
  match env.llmInvoke req attempt with
  | .error e => .error e
  | .ok resp => processAiResponse env.evalReturnOf req.id resp

/-- The body of one iteration of the retry loop (the `try` of lines
97–103): attempt a correction, persist it, re-execute it.  The event
list records the oracle invocation and, when reached, the save and the
corrected execution. -/
def attemptBody (env : RunEnv) (req : CorrectionRequest) (args : List JsVal) (attempt : Nat) : JsResult JsVal × List Event :=
  match attemptAICorrection env req attempt with
  | .error e => (.error e, [.oracleInvoke req attempt])
  | .ok correctedCode =>
    match env.save req.id correctedCode with
    | .error e => (.error e, [.oracleInvoke req attempt, .saveCall req.id correctedCode])
    | .ok _ =>
      (executeFunctionString env.exec correctedCode req.id args,
       [.oracleInvoke req attempt, .saveCall req.id correctedCode, .execCorrected correctedCode])

/-- The retry loop of lines 96–112, by remaining-iteration count
(`fuel` iterations left, current attempt number `attempt`; entered
from `run` with `fuel = maxAiRetries`, `attempt = 1`).  Any failure in
the body is caught (`aiAttemptError`); on the final attempt
(`attempt === maxAiRetries`, i.e. `fuel = 1`) the loop throws the
aggregated RetryExhausted error.  When the loop guard fails without the
final-attempt throw firing (`maxAiRetries = 0`), control falls off the
end of the `catch` block and `run` resolves with `undefined`, modelled
as `.ok none`. -/
def repairLoop (env : RunEnv) (req : CorrectionRequest) (args : List JsVal) (origErr : JsError) : Nat → Nat → Except JsError (Option JsVal) × List Event
  | 0, _ => (.ok none, [])
  | fuel + 1, attempt =>
    match attemptBody env req args attempt with
    | (.ok v, evs) => (.ok (some v), evs)
    | (.error e, evs) =>
      if fuel = 0 then
        (.error (mkError (retryExhaustedMessage req.id e.message origErr.message)), evs)
      else
        let r := repairLoop env req args origErr fuel (attempt + 1)
        (r.1, evs ++ r.2)

/-- The local (no persisted code) execution branch of lines 81–87:
invoke a callable directly, or run a code string through the
scope-injected eval path.  (`invalid` is unreachable here: `run`
rejects it before fetching.) -/
def runLocal (id : String) (fnOrCode : FnOrCode) (scope : List (String × JsVal)) (args : List JsVal) : JsResult JsVal × List Event :=
  match fnOrCode with
  | .fn _ behavior => (behavior, [.execDefaultFn])
  | .codeStr c => (executeCodeStringViaEval c id scope args, [.execDefaultEval c])
  | .invalid => (.error invalidInputError, [])

/-- The `try` block of lines 74–88: fetch the persisted text for `id`;
a truthy (non-empty) result is executed via `_executeFunctionString`,
otherwise the caller-supplied default runs.  A fetch failure is a
failure of this block (it is raised inside the `try`). -/
def tryPhase (env : RunEnv) (id : String) (fnOrCode : FnOrCode) (scope : List (String × JsVal)) (args : List JsVal) : JsResult JsVal × List Event :=
  match env.fetch id with
  | .error e => (.error e, [.fetchCall id])
  | .ok (some s) =>
    if s = "" then
      let r := runLocal id fnOrCode scope args
      (r.1, .fetchCall id :: r.2)
    else
      (executeFunctionString env.exec s id args, [.fetchCall id, .execDb s])
  | .ok none =>
    let r := runLocal id fnOrCode scope args
    (r.1, .fetchCall id :: r.2)

/-- Model of `Pause.run` (lines 66–117).  The result is the value the
returned promise settles with: `.ok (some v)` a resolved value,
`.ok none` resolving with `undefined` (the fall-through of the catch
block), `.error e` a rejection. -/
def run (env : RunEnv) (id description : String) (fnOrCode : FnOrCode) (scope : List (String × JsVal)) (args : List JsVal) : Except JsError (Option JsVal) × List Event :=
  match fnOrCode with
  | .invalid => (.error invalidInputError, [])
  | _ =>
    let originalCodeString := fnOrCode.text
    match tryPhase env id fnOrCode scope args with
    | (.ok v, evs) => (.ok (some v), evs)
    | (.error e, evs) =>
      if env.llm then
        let req := buildCorrectionPrompt id description originalCodeString e args
        let r := repairLoop env req args e env.maxAiRetries 1
        (r.1, evs ++ r.2)
      else
        (.error e, evs)

end Pause

/- ## Trace observations -/

/-- Whether an event is an oracle invocation. -/
def isOracleInvoke : Event → Bool
  | .oracleInvoke _ _ => true
  | _ => false

/-- Number of oracle invocations in a trace. -/
def countOracle (t : List Event) : Nat := t.countP isOracleInvoke

/-- Whether an event executes the caller-supplied default. -/
def isDefaultExec : Event → Bool
  | .execDefaultFn => true
  | .execDefaultEval _ => true
  | _ => false

/-- Whether an event is a store save. -/
def isSaveCall : Event → Bool
  | .saveCall _ _ => true
  | _ => false

/- ## Concrete scenario environments for the claims -/

deriving instance DecidableEq for Except

/-- Bundled shape of the events one retry-loop iteration can emit:
never a default-implementation execution; saves only under the
request's identifier with a candidate that passed validation; oracle
invocations only with the request that was passed in. -/
def EventSpec (env : RunEnv) (req : CorrectionRequest) (ev : Event) : Prop :=
  isDefaultExec ev = false ∧
  (∀ i c, ev = .saveCall i c → i = req.id ∧ exceptOk (env.evalReturnOf c) = true) ∧
  (∀ r m, ev = .oracleInvoke r m → r = req)

/-- A sample execution failure (tag 7 models its object identity). -/
def sampleErr : JsError := { tag := 7, message := "boom" }

/-- A sample store-save failure. -/
def saveErr : JsError := { tag := 8, message := "disk full" }

/-- A sample store-fetch failure. -/
def fetchErr : JsError := { tag := 9, message := "db down" }

/-- An oracle response with no structured tool call. -/
def respNoTool : AiResponse := { tool_calls := [], content := "no tool" }

/-- An oracle response proposing syntactically invalid code. -/
def respInvalidCode : AiResponse :=
  { tool_calls := [{ name := "propose_corrected_block", block_id := some "b1", corrected_code := some "(((" }],
    content := "" }

/-- An oracle response proposing a valid arrow-function literal. -/
def respValidCode : AiResponse :=
  { tool_calls := [{ name := "propose_corrected_block", block_id := some "b1", corrected_code := some "() => 1" }],
    content := "" }

/-- A baseline concrete environment: empty store, successful save,
no oracle configured, failing platform execution. -/
def baseEnv : RunEnv :=
  { fetch := fun _ => .ok none
    save := fun _ _ => .ok ()
    llm := false
    maxAiRetries := 3
    llmInvoke := fun _ _ => .ok respNoTool
    exec := fun _ _ => .error sampleErr
    evalReturnOf := miniEvalReturnOf }

/-- Environment with persisted text for every id, an oracle, one retry. -/
def c1Env : RunEnv :=
  { baseEnv with llm := true, maxAiRetries := 1, fetch := fun _ => .ok (some "() => dbCode") }

/-- The correction request `run` actually builds in the persisted-code
failure scenario: its origin code is the caller-supplied default text. -/
def c1Req : CorrectionRequest :=
  { id := "b1", description := "d", error := "Error: Error executing function string for ID b1: boom",
    stack := "", originalCode := "() => defaultCode", args := "[]" }

/-- Environment whose store holds text that executes successfully. -/
def c2Env : RunEnv :=
  { baseEnv with fetch := fun _ => .ok (some "() => 1"), exec := fun _ _ => .ok (JsVal.num 1) }

/-- Environment with an oracle that always proposes invalid code, two
retries allowed. -/
def c3Env : RunEnv :=
  { baseEnv with llm := true, maxAiRetries := 2, llmInvoke := fun _ _ => .ok respInvalidCode }

/-- Environment with an oracle configured but `maxAiRetries = 0`. -/
def c4Env : RunEnv := { baseEnv with llm := true, maxAiRetries := 0 }

/-- Environment whose store fetch always throws, oracle configured. -/
def c5Env : RunEnv :=
  { baseEnv with llm := true, maxAiRetries := 1, fetch := fun _ => .error fetchErr }

/-- Environment whose store fetch always throws, no oracle. -/
def c5wEnv : RunEnv := { baseEnv with fetch := fun _ => .error fetchErr }

/-- Environment whose save always throws, oracle proposing valid code. -/
def c6Env : RunEnv :=
  { baseEnv with
    llm := true
    maxAiRetries := 1
    llmInvoke := fun _ _ => .ok respValidCode
    save := fun _ _ => .error saveErr }

/- ## Supporting lemmas -/

/-- A non-successful `Except` is an error. -/
lemma exceptOk_false {ε α : Type} {r : Except ε α} (h : exceptOk r = false) : ∃ e, r = .error e := by
  cases r with
  | ok v => simp [exceptOk] at h
  | error e => exact ⟨e, rfl⟩

/-- Validation succeeds only when the platform construct-and-invoke does. -/
lemma validateCandidate_ok {ev : String → JsResult JsVal} {c : String}
    (h : exceptOk (Pause.validateCandidate ev c) = true) : exceptOk (ev c) = true := by
  unfold Pause.validateCandidate at h
  cases hev : ev c with
  | ok v => simp [exceptOk]
  | error e => rw [hev] at h; simp [exceptOk] at h

/-- A correction accepted by the response processing passed the
construct-and-invoke validation. -/
lemma processAiResponse_ok_valid {ev : String → JsResult JsVal} {id : String} {resp : AiResponse} {c : String}
    (h : Pause.processAiResponse ev id resp = .ok c) : exceptOk (ev c) = true := by
  unfold Pause.processAiResponse at h
  split at h
  · cases h
  · split at h
    · cases h
    · split at h
      · cases h
      · split at h
        · split at h
          · cases h
          · split at h
            · cases h
            · cases h
              apply validateCandidate_ok
              rename_i hv
              rw [hv]
              simp [exceptOk]
        · cases h

/-- A correction returned by `_attemptAICorrection` passed validation. -/
lemma attemptAICorrection_ok_valid {env : RunEnv} {req : CorrectionRequest} {n : Nat} {c : String}
    (h : Pause.attemptAICorrection env req n = .ok c) : exceptOk (env.evalReturnOf c) = true := by
  unfold Pause.attemptAICorrection at h
  split at h
  · cases h
  · exact processAiResponse_ok_valid h

/-- When the correction attempt itself fails, the loop body fails with
that error having emitted exactly the oracle invocation. -/
lemma attemptBody_fail_of_corr {env : RunEnv} {req : CorrectionRequest} {args : List JsVal} {n : Nat} {e : JsError}
    (h : Pause.attemptAICorrection env req n = .error e) :
    Pause.attemptBody env req args n = (.error e, [.oracleInvoke req n]) := by
  unfold Pause.attemptBody
  rw [h]

/-- When the correction is accepted but the save throws, the loop body
fails with the save error (caught by the loop's catch). -/
lemma attemptBody_save_fail {env : RunEnv} {req : CorrectionRequest} {args : List JsVal} {n : Nat}
    {c : String} {eS : JsError}
    (hc : Pause.attemptAICorrection env req n = .ok c) (hs : env.save req.id c = .error eS) :
    Pause.attemptBody env req args n = (.error eS, [.oracleInvoke req n, .saveCall req.id c]) := by
  simp [Pause.attemptBody, hc, hs]

/-- Every loop iteration invokes the oracle exactly once. -/
lemma attemptBody_count (env : RunEnv) (req : CorrectionRequest) (args : List JsVal) (n : Nat) :
    countOracle (Pause.attemptBody env req args n).2 = 1 := by
  unfold Pause.attemptBody
  split
  · simp [countOracle, isOracleInvoke]
  · split
    · simp [countOracle, isOracleInvoke, isSaveCall]
    · simp [countOracle, isOracleInvoke, isSaveCall]

/-- An oracle-invocation event satisfies the iteration event shape. -/
lemma eventSpec_oracle (env : RunEnv) (req : CorrectionRequest) (n : Nat) :
    EventSpec env req (.oracleInvoke req n) := by
  refine ⟨rfl, ?_, ?_⟩
  · intro i c hic; cases hic
  · intro r m hrm; injection hrm with h1 h2; exact h1.symm

/-- A corrected-execution event satisfies the iteration event shape. -/
lemma eventSpec_exec (env : RunEnv) (req : CorrectionRequest) (c : String) :
    EventSpec env req (.execCorrected c) := by
  refine ⟨rfl, ?_, ?_⟩
  · intro i c' hic; cases hic
  · intro r m hrm; cases hrm

/-- A save event for a validated candidate satisfies the shape. -/
lemma eventSpec_save (env : RunEnv) (req : CorrectionRequest) (c : String)
    (hv : exceptOk (env.evalReturnOf c) = true) :
    EventSpec env req (.saveCall req.id c) := by
  refine ⟨rfl, ?_, ?_⟩
  · intro i c' hic
    injection hic with h1 h2
    exact ⟨h1.symm, h2 ▸ hv⟩
  · intro r m hrm; cases hrm

/-- All events of one loop iteration satisfy the iteration event shape. -/
lemma attemptBody_events_spec (env : RunEnv) (req : CorrectionRequest) (args : List JsVal) (n : Nat) :
    ∀ ev ∈ (Pause.attemptBody env req args n).2, EventSpec env req ev := by
  intro ev hev
  unfold Pause.attemptBody at hev
  split at hev
  · simp at hev
    subst hev
    exact eventSpec_oracle env req n
  · rename_i c hcorr
    split at hev
    · simp at hev
      rcases hev with rfl | rfl
      · exact eventSpec_oracle env req n
      · exact eventSpec_save env req c (attemptAICorrection_ok_valid hcorr)
    · simp at hev
      rcases hev with rfl | rfl | rfl
      · exact eventSpec_oracle env req n
      · exact eventSpec_save env req c (attemptAICorrection_ok_valid hcorr)
      · exact eventSpec_exec env req c

/-- All events of the retry loop satisfy the iteration event shape. -/
lemma repairLoop_events_spec (env : RunEnv) (req : CorrectionRequest) (args : List JsVal) (origErr : JsError) :
    ∀ fuel attempt ev, ev ∈ (Pause.repairLoop env req args origErr fuel attempt).2 → EventSpec env req ev := by
  intro fuel
  induction fuel with
  | zero => intro attempt ev hev; simp [Pause.repairLoop] at hev
  | succ k ih =>
    intro attempt ev hev
    unfold Pause.repairLoop at hev
    split at hev
    · rename_i v evs hb
      have : evs = (Pause.attemptBody env req args attempt).2 := by rw [hb]
      exact attemptBody_events_spec env req args attempt ev (this ▸ hev)
    · rename_i e evs hb
      have hevs : evs = (Pause.attemptBody env req args attempt).2 := by rw [hb]
      split at hev
      · exact attemptBody_events_spec env req args attempt ev (hevs ▸ hev)
      · simp at hev
        rcases hev with hev | hev
        · exact attemptBody_events_spec env req args attempt ev (hevs ▸ hev)
        · exact ih (attempt + 1) ev hev

/-- When every iteration fails, `m + 1` iterations starting at
`attempt` make exactly `m + 1` oracle invocations and raise the
aggregated RetryExhausted error built from the final iteration's
failure and the original failure. -/
lemma repairLoop_all_fail (env : RunEnv) (req : CorrectionRequest) (args : List JsVal) (origErr : JsError)
    (H : ∀ n, exceptOk (Pause.attemptBody env req args n).1 = false) :
    ∀ m attempt, ∃ lastE,
      (Pause.attemptBody env req args (attempt + m)).1 = .error lastE ∧
      (Pause.repairLoop env req args origErr (m + 1) attempt).1 =
        .error (mkError (retryExhaustedMessage req.id lastE.message origErr.message)) ∧
      countOracle (Pause.repairLoop env req args origErr (m + 1) attempt).2 = m + 1 := by
  intro m
  induction m with
  | zero =>
    intro attempt
    obtain ⟨e, he⟩ := exceptOk_false (H attempt)
    refine ⟨e, by simpa using he, ?_, ?_⟩
    · unfold Pause.repairLoop
      rcases hb : Pause.attemptBody env req args attempt with ⟨r, evs⟩
      rw [hb] at he
      simp at he
      subst he
      simp
    · unfold Pause.repairLoop
      rcases hb : Pause.attemptBody env req args attempt with ⟨r, evs⟩
      rw [hb] at he
      simp at he
      subst he
      simp
      have := attemptBody_count env req args attempt
      rw [hb] at this
      simpa using this
  | succ k ih =>
    intro attempt
    obtain ⟨lastE, h1, h2, h3⟩ := ih (attempt + 1)
    refine ⟨lastE, ?_, ?_, ?_⟩
    · have : attempt + 1 + k = attempt + (k + 1) := by omega
      rw [this] at h1
      exact h1
    · unfold Pause.repairLoop
      obtain ⟨e, he⟩ := exceptOk_false (H attempt)
      rcases hb : Pause.attemptBody env req args attempt with ⟨r, evs⟩
      rw [hb] at he
      simp at he
      subst he
      simp
      exact h2
    · unfold Pause.repairLoop
      obtain ⟨e, he⟩ := exceptOk_false (H attempt)
      rcases hb : Pause.attemptBody env req args attempt with ⟨r, evs⟩
      rw [hb] at he
      simp at he
      subst he
      simp [countOracle, List.countP_append]
      have hc := attemptBody_count env req args attempt
      rw [hb] at hc
      simp [countOracle] at hc
      rw [hc]
      have hc2 := h3
      simp [countOracle] at hc2
      rw [hc2]
      omega

/-- The local branch emits no oracle or save events. -/
lemma runLocal_events (id : String) (fnOrCode : FnOrCode) (scope : List (String × JsVal)) (args : List JsVal) :
    ∀ ev ∈ (Pause.runLocal id fnOrCode scope args).2,
      isOracleInvoke ev = false ∧ isSaveCall ev = false := by
  intro ev hev
  unfold Pause.runLocal at hev
  cases fnOrCode with
  | fn t b => simp at hev; subst hev; exact ⟨rfl, rfl⟩
  | codeStr c => simp at hev; subst hev; exact ⟨rfl, rfl⟩
  | invalid => simp at hev

/-- The try block emits no oracle or save events. -/
lemma tryPhase_events (env : RunEnv) (id : String) (fnOrCode : FnOrCode) (scope : List (String × JsVal)) (args : List JsVal) :
    ∀ ev ∈ (Pause.tryPhase env id fnOrCode scope args).2,
      isOracleInvoke ev = false ∧ isSaveCall ev = false := by
  intro ev hev
  unfold Pause.tryPhase at hev
  split at hev
  · simp at hev; subst hev; exact ⟨rfl, rfl⟩
  · split at hev
    · simp at hev
      rcases hev with rfl | hev
      · exact ⟨rfl, rfl⟩
      · exact runLocal_events id fnOrCode scope args ev hev
    · simp at hev
      rcases hev with rfl | rfl
      · exact ⟨rfl, rfl⟩
      · exact ⟨rfl, rfl⟩
  · simp at hev
    rcases hev with rfl | hev
    · exact ⟨rfl, rfl⟩
    · exact runLocal_events id fnOrCode scope args ev hev

/-- A successful try block resolves `run` with its value. -/
lemma run_of_tryPhase_ok {env : RunEnv} {id d : String} {fno : FnOrCode} {scope : List (String × JsVal)} {args : List JsVal}
    {v : JsVal} {evs : List Event} (hfno : fno ≠ FnOrCode.invalid)
    (ht : Pause.tryPhase env id fno scope args = (.ok v, evs)) :
    Pause.run env id d fno scope args = (.ok (some v), evs) := by
  cases fno with
  | invalid => exact absurd rfl hfno
  | fn t b => unfold Pause.run; rw [ht]
  | codeStr c => unfold Pause.run; rw [ht]

/-- With no oracle, a failed try block rejects `run` with the same error. -/
lemma run_of_tryPhase_err_nollm {env : RunEnv} {id d : String} {fno : FnOrCode} {scope : List (String × JsVal)} {args : List JsVal}
    {e : JsError} {evs : List Event} (hfno : fno ≠ FnOrCode.invalid) (hllm : env.llm = false)
    (ht : Pause.tryPhase env id fno scope args = (.error e, evs)) :
    Pause.run env id d fno scope args = (.error e, evs) := by
  cases fno with
  | invalid => exact absurd rfl hfno
  | fn t b => unfold Pause.run; rw [ht]; simp [hllm]
  | codeStr c => unfold Pause.run; rw [ht]; simp [hllm]

/-- With an oracle, a failed try block sends `run` into the retry loop
with the correction prompt built from the caller-supplied text. -/
lemma run_of_tryPhase_err_llm {env : RunEnv} {id d : String} {fno : FnOrCode} {scope : List (String × JsVal)} {args : List JsVal}
    {e : JsError} {evs : List Event} (hfno : fno ≠ FnOrCode.invalid) (hllm : env.llm = true)
    (ht : Pause.tryPhase env id fno scope args = (.error e, evs)) :
    Pause.run env id d fno scope args =
      ((Pause.repairLoop env (Pause.buildCorrectionPrompt id d fno.text e args) args e env.maxAiRetries 1).1,
       evs ++ (Pause.repairLoop env (Pause.buildCorrectionPrompt id d fno.text e args) args e env.maxAiRetries 1).2) := by
  cases fno with
  | invalid => exact absurd rfl hfno
  | fn t b => unfold Pause.run; rw [ht]; simp [hllm, FnOrCode.text]
  | codeStr c => unfold Pause.run; rw [ht]; simp [hllm, FnOrCode.text]

/-- Every event of a `run` trace comes from the try block or, when an
oracle is configured, from the retry loop entered on some error. -/
lemma run_trace_mem {env : RunEnv} {id d : String} {fnOrCode : FnOrCode} {scope : List (String × JsVal)}
    {args : List JsVal} {ev : Event} (hev : ev ∈ (Pause.run env id d fnOrCode scope args).2) :
    ev ∈ (Pause.tryPhase env id fnOrCode scope args).2 ∨
    (env.llm = true ∧ ∃ e,
      ev ∈ (Pause.repairLoop env (Pause.buildCorrectionPrompt id d fnOrCode.text e args) args e env.maxAiRetries 1).2) := by
  cases hfno : fnOrCode with
  | invalid =>
    rw [hfno] at hev
    simp [Pause.run] at hev
  | fn t b =>
    rw [hfno] at hev
    have hne : FnOrCode.fn t b ≠ FnOrCode.invalid := by intro h; cases h
    rcases ht : Pause.tryPhase env id (FnOrCode.fn t b) scope args with ⟨r, evs⟩
    cases r with
    | ok v =>
      rw [run_of_tryPhase_ok (d := d) hne ht] at hev
      left; simpa using hev
    | error e =>
      cases hllm : env.llm with
      | false =>
        rw [run_of_tryPhase_err_nollm (d := d) hne hllm ht] at hev
        left; simpa using hev
      | true =>
        rw [run_of_tryPhase_err_llm (d := d) hne hllm ht] at hev
        rw [List.mem_append] at hev
        rcases hev with hev | hev
        · left; simpa using hev
        · right; exact ⟨rfl, e, hev⟩
  | codeStr cs =>
    rw [hfno] at hev
    have hne : FnOrCode.codeStr cs ≠ FnOrCode.invalid := by intro h; cases h
    rcases ht : Pause.tryPhase env id (FnOrCode.codeStr cs) scope args with ⟨r, evs⟩
    cases r with
    | ok v =>
      rw [run_of_tryPhase_ok (d := d) hne ht] at hev
      left; simpa using hev
    | error e =>
      cases hllm : env.llm with
      | false =>
        rw [run_of_tryPhase_err_nollm (d := d) hne hllm ht] at hev
        left; simpa using hev
      | true =>
        rw [run_of_tryPhase_err_llm (d := d) hne hllm ht] at hev
        rw [List.mem_append] at hev
        rcases hev with hev | hev
        · left; simpa using hev
        · right; exact ⟨rfl, e, hev⟩

/- ## Claim theorems -/

/-- C1 (counterexample): with persisted text `() => dbCode` that runs
and fails, the single correction attempt is built from the
caller-supplied default text `() => defaultCode`, not from the
persisted text that actually ran — refuting the claim as stated. -/
theorem c1_persisted_context_counterexample :
    c1Env.fetch "b1" = .ok (some "() => dbCode") ∧
    (Pause.run c1Env "b1" "d" (.fn "() => defaultCode" (.ok (JsVal.num 1))) [] []).2 =
      [.fetchCall "b1", .execDb "() => dbCode", .oracleInvoke c1Req 1] ∧
    c1Req.originalCode ≠ "() => dbCode" := by
  refine ⟨rfl, rfl, by decide⟩

/-- C1 (amended): every correction attempt of a `run` invocation is
built from the caller-supplied default's text (`originalCodeString` of
line 68), with the call's identifier and description — even when the
persisted text was what ran and failed. -/
theorem c1_repair_context_uses_default_text (env : RunEnv) (id d : String) (fnOrCode : FnOrCode)
    (scope : List (String × JsVal)) (args : List JsVal) :
    ∀ r n, Event.oracleInvoke r n ∈ (Pause.run env id d fnOrCode scope args).2 →
      r.originalCode = fnOrCode.text ∧ r.id = id ∧ r.description = d := by
  intro r n hmem
  rcases run_trace_mem hmem with hmem | ⟨_, e, hmem⟩
  · have := (tryPhase_events env id fnOrCode scope args _ hmem).1
    simp [isOracleInvoke] at this
  · have hspec := repairLoop_events_spec env _ args e env.maxAiRetries 1 _ hmem
    have hreq := hspec.2.2 r n rfl
    subst hreq
    exact ⟨rfl, rfl, rfl⟩

/-- C1 (witness): the amended theorem applied to the concrete
persisted-code failure scenario. -/
theorem c1_repair_context_witness :
    c1Req.originalCode = (FnOrCode.fn "() => defaultCode" (Except.ok (JsVal.num 1))).text ∧
    c1Req.id = "b1" ∧ c1Req.description = "d" :=
  c1_repair_context_uses_default_text c1Env "b1" "d" (.fn "() => defaultCode" (.ok (JsVal.num 1))) [] []
    c1Req 1 (by decide)

/-- C2: when the store fetch returns non-empty text, `run` never
executes the caller-supplied default (neither the callable nor the
text-eval path), and the persisted text is executed instead. -/
theorem c2_persisted_overrides_default (env : RunEnv) (id d : String) (fnOrCode : FnOrCode)
    (scope : List (String × JsVal)) (args : List JsVal) (s : String)
    (hfetch : env.fetch id = .ok (some s)) (hs : s ≠ "") :
    (∀ ev ∈ (Pause.run env id d fnOrCode scope args).2, isDefaultExec ev = false) ∧
    (fnOrCode ≠ FnOrCode.invalid →
      ∃ rest, (Pause.run env id d fnOrCode scope args).2 = .fetchCall id :: .execDb s :: rest) := by
  have ht : Pause.tryPhase env id fnOrCode scope args =
      (Pause.executeFunctionString env.exec s id args, [.fetchCall id, .execDb s]) := by
    unfold Pause.tryPhase
    rw [hfetch]
    simp [hs]
  cases hfno : fnOrCode with
  | invalid =>
    rw [hfno] at ht
    constructor
    · intro ev hev
      simp [Pause.run] at hev
    · intro hne; exact absurd rfl hne
  | fn t b =>
    rw [hfno] at ht
    have hne : FnOrCode.fn t b ≠ FnOrCode.invalid := by intro h; cases h
    cases hex : Pause.executeFunctionString env.exec s id args with
    | ok v =>
      rw [hex] at ht
      have hr := run_of_tryPhase_ok (d := d) hne ht
      rw [hr]
      refine ⟨?_, fun _ => ⟨[], rfl⟩⟩
      intro ev hev
      simp at hev
      rcases hev with rfl | rfl <;> rfl
    | error e =>
      rw [hex] at ht
      cases hllm : env.llm with
      | false =>
        have hr := run_of_tryPhase_err_nollm (d := d) hne hllm ht
        rw [hr]
        refine ⟨?_, fun _ => ⟨[], rfl⟩⟩
        intro ev hev
        simp at hev
        rcases hev with rfl | rfl <;> rfl
      | true =>
        have hr := run_of_tryPhase_err_llm (d := d) hne hllm ht
        rw [hr]
        refine ⟨?_, fun _ => ⟨_, rfl⟩⟩
        intro ev hev
        simp at hev
        rcases hev with rfl | rfl | hev
        · rfl
        · rfl
        · exact (repairLoop_events_spec env _ args e env.maxAiRetries 1 ev hev).1
  | codeStr c =>
    rw [hfno] at ht
    have hne : FnOrCode.codeStr c ≠ FnOrCode.invalid := by intro h; cases h
    cases hex : Pause.executeFunctionString env.exec s id args with
    | ok v =>
      rw [hex] at ht
      have hr := run_of_tryPhase_ok (d := d) hne ht
      rw [hr]
      refine ⟨?_, fun _ => ⟨[], rfl⟩⟩
      intro ev hev
      simp at hev
      rcases hev with rfl | rfl <;> rfl
    | error e =>
      rw [hex] at ht
      cases hllm : env.llm with
      | false =>
        have hr := run_of_tryPhase_err_nollm (d := d) hne hllm ht
        rw [hr]
        refine ⟨?_, fun _ => ⟨[], rfl⟩⟩
        intro ev hev
        simp at hev
        rcases hev with rfl | rfl <;> rfl
      | true =>
        have hr := run_of_tryPhase_err_llm (d := d) hne hllm ht
        rw [hr]
        refine ⟨?_, fun _ => ⟨_, rfl⟩⟩
        intro ev hev
        simp at hev
        rcases hev with rfl | rfl | hev
        · rfl
        · rfl
        · exact (repairLoop_events_spec env _ args e env.maxAiRetries 1 ev hev).1

/-- C2 (witness): the theorem applied to a concrete environment whose
store holds `() => 1`. -/
theorem c2_witness : isDefaultExec (Event.fetchCall "b1") = false :=
  (c2_persisted_overrides_default c2Env "b1" "d" (.fn "() => x" (.ok JsVal.undefined)) [] [] "() => 1"
    rfl (by decide)).1 (Event.fetchCall "b1") (by decide)

/-- C3: with `maxAiRetries = N >= 1`, an oracle configured, a failing
execution, and every correction attempt failing, the oracle is invoked
exactly `N` times and `run` rejects with the RetryExhausted error
whose message names the id and embeds the last internal failure's
message and the original failure's message. -/
theorem c3_bounded_retries_exhaustion (env : RunEnv) (id d text : String) (e0 : JsError)
    (scope : List (String × JsVal)) (args : List JsVal) (N : Nat)
    (hN : 1 ≤ N) (hmax : env.maxAiRetries = N) (hllm : env.llm = true)
    (hfetch : env.fetch id = .ok none)
    (hfail : ∀ n, ∃ failure,
      Pause.attemptAICorrection env (Pause.buildCorrectionPrompt id d text e0 args) n = .error failure) :
    countOracle (Pause.run env id d (.fn text (.error e0)) scope args).2 = N ∧
    ∃ lastE,
      Pause.attemptAICorrection env (Pause.buildCorrectionPrompt id d text e0 args) N = .error lastE ∧
      (Pause.run env id d (.fn text (.error e0)) scope args).1 =
        .error (mkError (retryExhaustedMessage id lastE.message e0.message)) := by
  have hne : FnOrCode.fn text (.error e0) ≠ FnOrCode.invalid := by intro h; cases h
  have ht : Pause.tryPhase env id (FnOrCode.fn text (.error e0)) scope args =
      (.error e0, [.fetchCall id, .execDefaultFn]) := by
    unfold Pause.tryPhase
    rw [hfetch]
    simp [Pause.runLocal]
  have hr := run_of_tryPhase_err_llm (d := d) hne hllm ht
  simp only [FnOrCode.text] at hr
  set req := Pause.buildCorrectionPrompt id d text e0 args with hreq
  have H : ∀ n, exceptOk (Pause.attemptBody env req args n).1 = false := by
    intro n
    obtain ⟨e', he'⟩ := hfail n
    rw [@attemptBody_fail_of_corr env req args n e' he']
    rfl
  obtain ⟨m, rfl⟩ : ∃ m, N = m + 1 := ⟨N - 1, by omega⟩
  obtain ⟨lastE, hlast, hres, hcount⟩ := repairLoop_all_fail env req args e0 H m 1
  rw [hmax] at hr
  constructor
  · rw [hr]
    simp only [countOracle, List.countP_append]
    have h0 : List.countP isOracleInvoke [Event.fetchCall id, Event.execDefaultFn] = 0 := rfl
    rw [h0]
    simpa [countOracle] using hcount
  · obtain ⟨e', he'⟩ := hfail (m + 1)
    refine ⟨e', he', ?_⟩
    have hb := @attemptBody_fail_of_corr env req args (m + 1) e' he'
    have h1m : 1 + m = m + 1 := by omega
    rw [h1m] at hlast
    rw [hb] at hlast
    simp at hlast
    rw [hr]
    simp only []
    rw [hres]
    rw [hlast]
    rfl

/-- C3 (witness): the theorem applied to a concrete environment whose
oracle always proposes syntactically invalid code, with `N = 2`. -/
theorem c3_witness :
    countOracle (Pause.run c3Env "b1" "d" (.fn "() => x" (.error sampleErr)) [] []).2 = 2 :=
  (c3_bounded_retries_exhaustion c3Env "b1" "d" "() => x" sampleErr [] [] 2 (by decide) rfl rfl rfl
    (fun _ => ⟨_, rfl⟩)).1

/-- C4 (code bug, evaluation at the failing input): with an oracle
configured and `maxAiRetries = 0`, a failing execution makes `run`
resolve successfully with `undefined` — the failure is silently
swallowed, contradicting the claim and `run`'s own documentation. -/
theorem c4_zero_retries_resolves_undefined :
    Pause.run c4Env "b1" "d" (.fn "() => x" (.error sampleErr)) [] [] =
      (.ok none, [.fetchCall "b1", .execDefaultFn]) := rfl

/-- C5 (counterexample): with an oracle configured, a store-fetch
failure does not propagate directly: the oracle is invoked once and
the result is not the fetch error — refuting the claim as stated. -/
theorem c5_fetch_failure_counterexample :
    countOracle (Pause.run c5Env "b1" "d" (.fn "() => x" (.ok (JsVal.num 1))) [] []).2 = 1 ∧
    (Pause.run c5Env "b1" "d" (.fn "() => x" (.ok (JsVal.num 1))) [] []).1 ≠ .error fetchErr := by
  exact ⟨rfl, by decide⟩

/-- C5 (amended): a store-fetch failure propagates directly (with no
repair) only when no oracle is configured; with an oracle configured
it enters the repair loop exactly like an execution failure, with the
fetch error as the correction context's original error. -/
theorem c5_fetch_failure_amended (env : RunEnv) (id d : String) (fnOrCode : FnOrCode)
    (scope : List (String × JsVal)) (args : List JsVal) (eF : JsError)
    (hfno : fnOrCode ≠ FnOrCode.invalid) (hfetch : env.fetch id = .error eF) :
    (env.llm = false → Pause.run env id d fnOrCode scope args = (.error eF, [.fetchCall id])) ∧
    (env.llm = true → Pause.run env id d fnOrCode scope args =
      ((Pause.repairLoop env (Pause.buildCorrectionPrompt id d fnOrCode.text eF args) args eF env.maxAiRetries 1).1,
       .fetchCall id ::
         (Pause.repairLoop env (Pause.buildCorrectionPrompt id d fnOrCode.text eF args) args eF env.maxAiRetries 1).2)) := by
  have ht : Pause.tryPhase env id fnOrCode scope args = (.error eF, [.fetchCall id]) := by
    unfold Pause.tryPhase
    rw [hfetch]
  constructor
  · intro hllm
    exact run_of_tryPhase_err_nollm (d := d) hfno hllm ht
  · intro hllm
    have hr := run_of_tryPhase_err_llm (d := d) hfno hllm ht
    rw [hr]
    rfl

/-- C5 (witness): the amended theorem's no-oracle half applied to a
concrete environment whose fetch throws. -/
theorem c5_witness :
    Pause.run c5wEnv "b1" "d" (.fn "() => x" (.ok JsVal.undefined)) [] [] =
      (.error fetchErr, [.fetchCall "b1"]) :=
  (c5_fetch_failure_amended c5wEnv "b1" "d" (.fn "() => x" (.ok JsVal.undefined)) [] [] fetchErr
    (by intro h; cases h) rfl).1 rfl

/-- C6 (counterexample): a save failure while persisting an accepted
correction does not propagate directly: with one retry allowed, `run`
rejects with RetryExhausted embedding the save failure's message as
the last internal failure — refuting the claim as stated. -/
theorem c6_save_failure_counterexample :
    (Pause.run c6Env "b1" "d" (.fn "() => x" (.error sampleErr)) [] []).1 =
      .error (mkError (retryExhaustedMessage "b1" "disk full" "boom")) ∧
    (Pause.run c6Env "b1" "d" (.fn "() => x" (.error sampleErr)) [] []).1 ≠ .error saveErr := by
  exact ⟨rfl, by decide⟩

/-- C6 (amended): a save failure during the repair loop is caught by
the loop's catch: it consumes the attempt, is retried while attempts
remain, and on exhaustion appears inside RetryExhausted as the last
internal failure; the oracle is still invoked `N` times. -/
theorem c6_save_failure_amended (env : RunEnv) (id d text : String) (e0 eS : JsError)
    (scope : List (String × JsVal)) (args : List JsVal) (N : Nat)
    (hN : 1 ≤ N) (hmax : env.maxAiRetries = N) (hllm : env.llm = true)
    (hfetch : env.fetch id = .ok none)
    (hsave : ∀ c, env.save id c = .error eS)
    (hcorr : ∀ n, ∃ c,
      Pause.attemptAICorrection env (Pause.buildCorrectionPrompt id d text e0 args) n = .ok c) :
    (Pause.run env id d (.fn text (.error e0)) scope args).1 =
      .error (mkError (retryExhaustedMessage id eS.message e0.message)) ∧
    countOracle (Pause.run env id d (.fn text (.error e0)) scope args).2 = N := by
  have hne : FnOrCode.fn text (.error e0) ≠ FnOrCode.invalid := by intro h; cases h
  have ht : Pause.tryPhase env id (FnOrCode.fn text (.error e0)) scope args =
      (.error e0, [.fetchCall id, .execDefaultFn]) := by
    unfold Pause.tryPhase
    rw [hfetch]
    simp [Pause.runLocal]
  have hr := run_of_tryPhase_err_llm (d := d) hne hllm ht
  simp only [FnOrCode.text] at hr
  set req := Pause.buildCorrectionPrompt id d text e0 args with hreq
  have hbody : ∀ n, ∃ c, Pause.attemptBody env req args n =
      (.error eS, [.oracleInvoke req n, .saveCall req.id c]) := by
    intro n
    obtain ⟨c, hc⟩ := hcorr n
    exact ⟨c, attemptBody_save_fail hc (hsave c)⟩
  have H : ∀ n, exceptOk (Pause.attemptBody env req args n).1 = false := by
    intro n
    obtain ⟨c, hb⟩ := hbody n
    rw [hb]
    rfl
  obtain ⟨m, rfl⟩ : ∃ m, N = m + 1 := ⟨N - 1, by omega⟩
  obtain ⟨lastE, hlast, hres, hcount⟩ := repairLoop_all_fail env req args e0 H m 1
  rw [hmax] at hr
  have hlastE : lastE = eS := by
    obtain ⟨c, hb⟩ := hbody (1 + m)
    rw [hb] at hlast
    simp at hlast
    exact hlast.symm
  constructor
  · rw [hr]
    simp only []
    rw [hres, hlastE]
    rfl
  · rw [hr]
    simp only [countOracle, List.countP_append]
    have h0 : List.countP isOracleInvoke [Event.fetchCall id, Event.execDefaultFn] = 0 := rfl
    rw [h0]
    simpa [countOracle] using hcount

/-- C6 (witness): the amended theorem applied to a concrete
environment whose save always throws, with `N = 1`. -/
theorem c6_witness :
    (Pause.run c6Env "b1" "d" (.fn "() => x" (.error sampleErr)) [] []).1 =
      .error (mkError (retryExhaustedMessage "b1" saveErr.message sampleErr.message)) ∧
    countOracle (Pause.run c6Env "b1" "d" (.fn "() => x" (.error sampleErr)) [] []).2 = 1 :=
  c6_save_failure_amended c6Env "b1" "d" "() => x" sampleErr saveErr [] [] 1 (by decide) rfl rfl rfl
    (fun _ => rfl) (fun _ => ⟨_, rfl⟩)

/-- C7: with no oracle configured, `run` re-raises the very error
value the selected execution raised (same identity and message),
having made no oracle invocation and no store write, on every
execution path: for a default callable, the callable's own error; for
persisted text, exactly the error `_executeFunctionString` raised
(lines 305–310); for a default code string, exactly the error
`_executeCodeStringViaEval` raised (lines 356–362). -/
theorem c7_no_oracle_passthrough (env : RunEnv) (id d text : String)
    (scope : List (String × JsVal)) (args : List JsVal) (hllm : env.llm = false) :
    (∀ e, env.fetch id = .ok none →
      Pause.run env id d (.fn text (.error e)) scope args = (.error e, [.fetchCall id, .execDefaultFn])) ∧
    (∀ s e1, env.fetch id = .ok (some s) → s ≠ "" →
      Pause.executeFunctionString env.exec s id args = .error e1 →
      ∀ b, Pause.run env id d (.fn text b) scope args = (.error e1, [.fetchCall id, .execDb s])) ∧
    (∀ c e2, env.fetch id = .ok none →
      Pause.executeCodeStringViaEval c id scope args = .error e2 →
      Pause.run env id d (.codeStr c) scope args = (.error e2, [.fetchCall id, .execDefaultEval c])) := by
  refine ⟨?_, ?_, ?_⟩
  · intro e hfetch
    have hne : FnOrCode.fn text (.error e) ≠ FnOrCode.invalid := by intro h; cases h
    have ht : Pause.tryPhase env id (FnOrCode.fn text (.error e)) scope args =
        (.error e, [.fetchCall id, .execDefaultFn]) := by
      unfold Pause.tryPhase
      rw [hfetch]
      simp [Pause.runLocal]
    exact run_of_tryPhase_err_nollm (d := d) hne hllm ht
  · intro s e1 hfetch hs hex b
    have hne : FnOrCode.fn text b ≠ FnOrCode.invalid := by intro h; cases h
    have ht : Pause.tryPhase env id (FnOrCode.fn text b) scope args =
        (.error e1, [.fetchCall id, .execDb s]) := by
      unfold Pause.tryPhase
      rw [hfetch]
      simp [hs, hex]
    exact run_of_tryPhase_err_nollm (d := d) hne hllm ht
  · intro c e2 hfetch hev
    have hne : FnOrCode.codeStr c ≠ FnOrCode.invalid := by intro h; cases h
    have ht : Pause.tryPhase env id (FnOrCode.codeStr c) scope args =
        (.error e2, [.fetchCall id, .execDefaultEval c]) := by
      unfold Pause.tryPhase
      rw [hfetch]
      simp [Pause.runLocal, hev]
    exact run_of_tryPhase_err_nollm (d := d) hne hllm ht

/-- C7 (witness): the theorem applied to the baseline environment, for
a failing default callable and for a failing default code string (the
eval path rethrows the `ReferenceError` with its message wrapped, same
error object). -/
theorem c7_witness :
    (Pause.run baseEnv "b1" "d" (.fn "() => x" (.error sampleErr)) [] [] =
      (.error sampleErr, [.fetchCall "b1", .execDefaultFn])) ∧
    (Pause.run baseEnv "b1" "d" (.codeStr "() => nonExistentVar") [] [] =
      (.error (wrapEvalErr "b1" { name := "ReferenceError", message := "nonExistentVar is not defined" }),
       [.fetchCall "b1", .execDefaultEval "() => nonExistentVar"])) :=
  ⟨(c7_no_oracle_passthrough baseEnv "b1" "d" "() => x" [] [] rfl).1 sampleErr rfl,
   (c7_no_oracle_passthrough baseEnv "b1" "d" "() => x" [] [] rfl).2.2 "() => nonExistentVar"
     (wrapEvalErr "b1" { name := "ReferenceError", message := "nonExistentVar is not defined" }) rfl rfl⟩

/-- C8: for textual evaluation of `(p, q) => { return p + q }` with
empty scope and arguments `(5, 10)`: the inferred parameters are
`p, q`, the synthesized execution scope binds `p = 5`, `q = 10`, and
the evaluation yields `15`. -/
theorem c8_scope_binding :
    inferParams "(p, q) => { return p + q }" = ["p", "q"] ∧
    bindParams [] ["p", "q"] [JsVal.num 5, JsVal.num 10] = [("p", JsVal.num 5), ("q", JsVal.num 10)] ∧
    Pause.executeCodeStringViaEval "(p, q) => { return p + q }" "scope-binding" [] [JsVal.num 5, JsVal.num 10] =
      .ok (JsVal.num 15) :=
  ⟨rfl, rfl, rfl⟩

/-- C9 (counterexample): `someUndefinedVariable` is syntactically
valid, yet validation rejects it (the wrapper function is invoked, so
the candidate's top-level expression is evaluated and throws a
`ReferenceError`) — refuting "rejected exactly when not syntactically
valid" and "parse-without-execute". -/
theorem c9_validation_counterexample :
    miniSyntaxOk "someUndefinedVariable" = true ∧
    exceptOk (Pause.validateCandidate miniEvalReturnOf "someUndefinedVariable") = false :=
  ⟨rfl, rfl⟩

/-- C9 (amended): validation accepts a candidate exactly when
constructing and invoking `new Function('return ' + code)` succeeds;
in particular every syntactically invalid candidate is rejected, but
the check also evaluates the candidate's top-level expression, so
syntactically valid candidates whose evaluation throws are rejected
too. -/
theorem c9_validation_amended :
    (∀ c, miniSyntaxOk c = false → exceptOk (Pause.validateCandidate miniEvalReturnOf c) = false) ∧
    (∀ c, exceptOk (Pause.validateCandidate miniEvalReturnOf c) = exceptOk (miniEvalReturnOf c)) := by
  constructor
  · intro c h
    have hp : miniParse c = none := by
      unfold miniSyntaxOk at h
      cases hp : miniParse c with
      | none => rfl
      | some e => rw [hp] at h; simp at h
    unfold Pause.validateCandidate miniEvalReturnOf
    rw [hp]
    rfl
  · intro c
    unfold Pause.validateCandidate
    cases hev : miniEvalReturnOf c with
    | ok v => rfl
    | error e => rfl

/-- C9 (witness): the amended theorem applied to the syntactically
invalid candidate `(((`. -/
theorem c9_witness : exceptOk (Pause.validateCandidate miniEvalReturnOf "(((") = false :=
  c9_validation_amended.1 "(((" (by decide)

/-- C10: every store save performed by `run` is under the call's own
identifier with a candidate that passed validation, and a `run` whose
selected variant executes successfully performs no store save. -/
theorem c10_save_only_validated_under_id (env : RunEnv) (id d : String) (fnOrCode : FnOrCode)
    (scope : List (String × JsVal)) (args : List JsVal) :
    (∀ i c, Event.saveCall i c ∈ (Pause.run env id d fnOrCode scope args).2 →
      i = id ∧ exceptOk (env.evalReturnOf c) = true) ∧
    (∀ v evs, Pause.tryPhase env id fnOrCode scope args = (.ok v, evs) →
      ∀ ev ∈ (Pause.run env id d fnOrCode scope args).2, isSaveCall ev = false) := by
  constructor
  · intro i c hmem
    cases hfno : fnOrCode with
    | invalid =>
      rw [hfno] at hmem
      simp [Pause.run] at hmem
    | fn t b =>
      rw [hfno] at hmem
      have hne : FnOrCode.fn t b ≠ FnOrCode.invalid := by intro h; cases h
      rcases ht : Pause.tryPhase env id (FnOrCode.fn t b) scope args with ⟨r, evs⟩
      cases r with
      | ok v =>
        rw [run_of_tryPhase_ok (d := d) hne ht] at hmem
        have := (tryPhase_events env id (FnOrCode.fn t b) scope args _ (ht ▸ hmem : Event.saveCall i c ∈ (Pause.tryPhase env id (FnOrCode.fn t b) scope args).2)).2
        simp [isSaveCall] at this
      | error e =>
        cases hllm : env.llm with
        | false =>
          rw [run_of_tryPhase_err_nollm (d := d) hne hllm ht] at hmem
          have := (tryPhase_events env id (FnOrCode.fn t b) scope args _ (ht ▸ hmem : Event.saveCall i c ∈ (Pause.tryPhase env id (FnOrCode.fn t b) scope args).2)).2
          simp [isSaveCall] at this
        | true =>
          rw [run_of_tryPhase_err_llm (d := d) hne hllm ht] at hmem
          rw [List.mem_append] at hmem
          rcases hmem with hmem | hmem
          · have := (tryPhase_events env id (FnOrCode.fn t b) scope args _ (by rw [ht]; exact hmem)).2
            simp [isSaveCall] at this
          · have hspec := repairLoop_events_spec env _ args e env.maxAiRetries 1 _ hmem
            have := hspec.2.1 i c rfl
            exact ⟨this.1, this.2⟩
    | codeStr cs =>
      rw [hfno] at hmem
      have hne : FnOrCode.codeStr cs ≠ FnOrCode.invalid := by intro h; cases h
      rcases ht : Pause.tryPhase env id (FnOrCode.codeStr cs) scope args with ⟨r, evs⟩
      cases r with
      | ok v =>
        rw [run_of_tryPhase_ok (d := d) hne ht] at hmem
        have := (tryPhase_events env id (FnOrCode.codeStr cs) scope args _ (ht ▸ hmem : Event.saveCall i c ∈ (Pause.tryPhase env id (FnOrCode.codeStr cs) scope args).2)).2
        simp [isSaveCall] at this
      | error e =>
        cases hllm : env.llm with
        | false =>
          rw [run_of_tryPhase_err_nollm (d := d) hne hllm ht] at hmem
          have := (tryPhase_events env id (FnOrCode.codeStr cs) scope args _ (ht ▸ hmem : Event.saveCall i c ∈ (Pause.tryPhase env id (FnOrCode.codeStr cs) scope args).2)).2
          simp [isSaveCall] at this
        | true =>
          rw [run_of_tryPhase_err_llm (d := d) hne hllm ht] at hmem
          rw [List.mem_append] at hmem
          rcases hmem with hmem | hmem
          · have := (tryPhase_events env id (FnOrCode.codeStr cs) scope args _ (by rw [ht]; exact hmem)).2
            simp [isSaveCall] at this
          · have hspec := repairLoop_events_spec env _ args e env.maxAiRetries 1 _ hmem
            have := hspec.2.1 i c rfl
            exact ⟨this.1, this.2⟩
  · intro v evs ht ev hev
    cases hfno : fnOrCode with
    | invalid =>
      rw [hfno] at hev
      simp [Pause.run] at hev
    | fn t b =>
      rw [hfno] at ht hev
      have hne : FnOrCode.fn t b ≠ FnOrCode.invalid := by intro h; cases h
      rw [run_of_tryPhase_ok (d := d) hne ht] at hev
      exact (tryPhase_events env id (FnOrCode.fn t b) scope args ev (by rw [ht]; exact hev)).2
    | codeStr cs =>
      rw [hfno] at ht hev
      have hne : FnOrCode.codeStr cs ≠ FnOrCode.invalid := by intro h; cases h
      rw [run_of_tryPhase_ok (d := d) hne ht] at hev
      exact (tryPhase_events env id (FnOrCode.codeStr cs) scope args ev (by rw [ht]; exact hev)).2

/-- C10 (witness): the theorem applied to a concrete environment whose
persisted text executes successfully. -/
theorem c10_witness : isSaveCall (Event.fetchCall "b1") = false :=
  (c10_save_only_validated_under_id c2Env "b1" "d" (.fn "() => x" (.ok JsVal.undefined)) [] []).2
    (JsVal.num 1) [.fetchCall "b1", .execDb "() => 1"] rfl (Event.fetchCall "b1") (by decide)
